import Mathlib

/-!
Verification of the raster EDF resolver (sarus-suite/raster).

This file shallowly embeds the Rust sources under src/ — error.rs, common.rs,
mount.rs, lib.rs — and proves or refutes the frozen claims about them.

Modelling conventions:
* Rust `String` is Lean `String`; machine integers that matter (`code : u64`)
  are `Nat` (no arithmetic is ever performed on them, only construction and
  comparison, so overflow cannot occur).
* Fallible Rust functions returning `SarusResult<T>` become
  `Except SarusError T`.
* `HashMap<String,String>` is modelled as an association list
  (`List (String × String)`); only map-level semantics (lookup, override on
  collision) are ever used by the claims.
* External effects are parameters: the filesystem probes of mount.rs are a
  `MountFS` record, the filesystem/loader of lib.rs a `RenderFS` record, the
  sandboxed `bash` subprocess of common.rs a `sandbox` function argument, and
  the variable expander threaded through lib.rs an `E : String → Except
  SarusError String` argument (it closes over the `env : Option<HashMap>` of
  the Rust code).
* The Rust field `annotations` is called `annots` here; the semantics is the
  already-flattened `HashMap<String,String>` form (`annotations_as_hashmap`),
  which is the only form the merge and expansion code observes.
-/

namespace Raster

/-- Association-list model of `HashMap<String,String>`. -/
abbrev HMap := List (String × String)

/-- `HashMap::extend`: union of keys, `b`'s value wins on collision
(entries of `a` whose key reappears in `b` are replaced). -/
def extendMap (a b : HMap) : HMap :=
  a.filter (fun p => !(b.any (fun q => q.1 == p.1))) ++ b

/-- `SarusError` from error.rs: stable numeric code, optional offending file
path, message. -/
structure SarusError where
  code : Nat
  file_path : Option String
  msg : String
deriving DecidableEq

/-- Projection used to state claims that only pin the numeric error code. -/
def errCode {α : Type} : Except SarusError α → Option Nat
  | .error e => some e.code
  | .ok _ => none

/-! ## mount.rs -/

/-- `SarusMount`: `{source, target, flags}`, field-wise equality
(`derive(PartialEq)`). -/
structure SarusMount where
  source : String
  target : String
  flags : String
deriving DecidableEq

/-- `escape_mount` from mount.rs: mntent/fstab escaping of space, tab,
newline and backslash. -/
def escapeMount (path : String) : String :=
  path.data.foldl
    (fun epath c1 =>
      epath ++
        (if c1 = ' ' then "\\040"
         else if c1 = '\t' then "\\011"
         else if c1 = '\n' then "\\012"
         else if c1 = '\\' then "\\\\"
         else String.singleton c1))
    ""

/-- Rust `str::starts_with` / `String::startsWith` (implemented over the
character list so that it is kernel-computable). -/
def strStartsWith (s pre : String) : Bool :=
  pre.data.isPrefixOf s.data

/-- Rust `str::ends_with` (implemented over the character list). -/
def strEndsWith (s suff : String) : Bool :=
  suff.data.isSuffixOf s.data

/-- Split a character list on a separator character; the trailing accumulator
holds the current field reversed. Splitting on a one-character pattern in
Rust keeps empty fields, as this does. -/
def splitCharAux (sep : Char) : List Char → List Char → List String
  | [], acc => [⟨acc.reverse⟩]
  | c :: rest, acc =>
    if c == sep then ⟨acc.reverse⟩ :: splitCharAux sep rest []
    else splitCharAux sep rest (c :: acc)

/-- Rust `input.split(":")`. -/
def splitColon (input : String) : List String := splitCharAux ':' input.data []

/-- Rust `input.split(",")` (used on flag strings). -/
def splitComma (input : String) : List String := splitCharAux ',' input.data []

/-- `", "`-free join: Rust `Vec::join(",")`. -/
def joinComma : List String → String
  | [] => ""
  | [s] => s
  | s :: rest => s ++ "," ++ joinComma rest

/-- `Path::new(s).starts_with(".")`: true iff the first path component is
`CurDir`, i.e. the text up to the first `/` is exactly `"."`. -/
def pathStartsDot (s : String) : Bool :=
  s.data.takeWhile (fun c => c != '/') == ['.']

/-- `Path::new(s).starts_with("/")`: true iff the path is rooted. -/
def pathStartsSlash (s : String) : Bool :=
  strStartsWith s "/"

/-- `[".", "/"].iter().any(|p| path.starts_with(*p))` with `Path` semantics. -/
def pathStartsDotOrSlash (s : String) : Bool :=
  pathStartsDot s || pathStartsSlash s

/-- The filesystem operations `SarusMount::try_new` performs:
`std::path::absolute` (None models an `Err`) and `std::fs::metadata`
(`none` models a stat error, `some b` a successful stat with `is_file = b`).
`Path::as_os_str().to_str()` cannot fail in this model (all strings are
valid UTF-8), so the code-11 branch of the source is unreachable here. -/
structure MountFS where
  absolutize : String → Option String
  metadata : String → Option Bool

/-- The default-flag chain of the non-sqsh branch of `try_new`
(mount.rs lines 74-92): path-like sources get the bind default, the
`tmpfs`/`umount` keywords their creation/detach flags, anything else is
rejected (code 12). -/
def defaultFlag (s : String) : Option String :=
  if pathStartsDotOrSlash s then some "x-create=auto,rbind"
  else if s = "tmpfs" then some "x-create=dir"
  else if s = "umount" then some "x-detach"
  else none

/-- Body of `SarusMount::try_new` after field splitting: `s`/`t`/`f` are the
split fields (`f = ""` for two-field specs). Mirrors mount.rs lines 35-148:
source classification (sqsh resolution or default-flag chain), target
validation, fstab escaping, and sqsh stat checking / flag assembly. -/
def tryNewCore (fs : MountFS) (s t f : String) : Except SarusError SarusMount :=
  -- source classification; yields the (possibly absolutized) source and the
  -- default flag (unused for sqsh)
  let cls : Except SarusError (String × String) :=
    if f = "sqsh" then
      if pathStartsDot s then
        match fs.absolutize s with
        | none => .error ⟨9, none, "cannot translate " ++ s ++ " in an absolute path"⟩
        | some s1 => .ok (s1, "")
      else if pathStartsSlash s then .ok (s, "")
      else .error ⟨10, none,
        "source of squashfs mount " ++ s ++
          " must be a relative path or an absolute path starting with . or /"⟩
    else
      match defaultFlag s with
      | some df => .ok (s, df)
      | none => .error ⟨12, none,
          "mount source " ++ s ++
            " must be one among a relative path starting with . , an absolute path starting with / , tmpfs or umount"⟩
  match cls with
  | .error e => .error e
  | .ok (s1, df) =>
    if pathStartsDotOrSlash t then
      let es := escapeMount s1
      let et := escapeMount t
      if f = "sqsh" then
        match fs.metadata s1 with
        | none => .error ⟨14, none,
            "could not stat source of squashfs mount (" ++ s1 ++ ")"⟩
        | some false => .error ⟨14, none,
            "source of squashfs mount (" ++ s1 ++ ") must be a regular file"⟩
        | some true => .ok ⟨es, et, ""⟩
      else
        .ok ⟨es, et, if f ≠ "" then df ++ "," ++ f else df⟩
    else
      .error ⟨13, none,
        "mount target " ++ t ++
          " must be one among a relative path starting with . or an absolute path starting with /"⟩

/-- `SarusMount::try_new` (mount.rs lines 14-149): split on `:`, require 2 or
3 fields (code 8 otherwise), then `tryNewCore`. -/
def SarusMount.tryNew (fs : MountFS) (input : String) : Except SarusError SarusMount :=
  match splitColon input with
  | [s, t] => tryNewCore fs s t ""
  | [s, t, f] => tryNewCore fs s t f
  | parts => .error ⟨8, none,
      input ++ " contains " ++ toString parts.length ++ " number of fields, expected 2 or 3"⟩

/-- Accumulating loop of `sarus_mounts_from_strings` (mount.rs lines 152-163):
compile each spec, push it only when no equal record is present. -/
def sarusMountsGo (fs : MountFS) : List String → List SarusMount → Except SarusError (List SarusMount)
  | [], res => .ok res
  | i :: rest, res =>
    match SarusMount.tryNew fs i with
    | .error e => .error e
    | .ok m => sarusMountsGo fs rest (if m ∈ res then res else res ++ [m])

/-- `sarus_mounts_from_strings` (mount.rs lines 152-163). -/
def sarusMountsFromStrings (fs : MountFS) (input : List String) : Except SarusError (List SarusMount) :=
  sarusMountsGo fs input []

/-! ## common.rs — variable expansion -/

/-- The backtick character (code 96). -/
def backquoteChar : Char := Char.ofNat 96

/-- The double-quote character (code 34). -/
def dquoteChar : Char := Char.ofNat 34

/-- Whether a character list starts with one of the banned alternatives of the
regex `([^\\]|^)(\$\(|backtick|;|")`: the command-substitution opener `$(`,
a backtick, a semicolon, or a double quote. -/
def isBannedStart : List Char → Bool
  | [] => false
  | [c] => c == backquoteChar || c == ';' || c == dquoteChar
  | c :: c2 :: _ =>
    (c == '$' && c2 == '(') || c == backquoteChar || c == ';' || c == dquoteChar

/-- Scan for a banned alternative at positions ≥ 1, carrying the previous
character: a hit needs the previous character to not be a backslash
(the `[^\\]` alternative of the regex capture). -/
def scanBanned : Char → List Char → Bool
  | _, [] => false
  | prev, c :: rest =>
    ((prev != '\\') && isBannedStart (c :: rest)) || scanBanned c rest

/-- `re_banned.is_match(input)` for the regex
`([^\\]|^)(\$\(|backtick|;|")` of `expand_vars_string_with_env`
(common.rs line 22): a banned alternative at position 0 (the `^` branch),
or at a later position whose preceding character is not a backslash. -/
def reBannedMatch (s : String) : Bool :=
  match s.data with
  | [] => false
  | c :: rest => isBannedStart (c :: rest) || scanBanned c rest

/-- The claim's own wording of the denylist, stated positionally: the text
contains, at a position not immediately preceded by a backslash, one of
`$(`, backtick, `;`, `"`. -/
def hasBannedUnescaped (s : String) : Bool :=
  (List.range s.data.length).any fun i =>
    isBannedStart (s.data.drop i) &&
      (i == 0 || s.data.get? (i - 1) != some '\\')

/-- Outcome of the sandboxed `bash -r` invocation of
`expand_vars_string_with_env` (common.rs lines 33-61): a spawn failure
(`output` was `Err(e)`), non-UTF8 standard output, or captured UTF-8 output.
The subprocess itself is external; it is a parameter of the embedding. -/
inductive SandboxOut where
  | spawnErr (e : String)
  | nonUtf8 (e : String)
  | ok (out : String)
deriving DecidableEq

/-- The banned-pattern error of `expand_vars_string_with_env`
(common.rs lines 24-29). -/
def bannedErr (input : String) : SarusError :=
  ⟨18, none, "cannot expand string " ++ input ++ ", invalid string"⟩

/-- `expand_vars_string_with_env` (common.rs lines 17-64), Mode B: denylist
scan first (code 18, "invalid string"); only when it passes is the sandbox
invoked, whose spawn failure maps to code 18 and non-UTF8 output to
code 19. -/
def expandVarsStringWithEnv (sandbox : String → HMap → SandboxOut)
    (input : String) (env : HMap) : Except SarusError String :=
  if reBannedMatch input then .error (bannedErr input)
  else
    match sandbox input env with
    | .spawnErr e => .error ⟨18, none, "cannot expand string " ++ input ++ ", " ++ e⟩
    | .nonUtf8 e => .error ⟨19, none, "cannot expand string " ++ input ++ ", " ++ e⟩
    | .ok out => .ok out

/-- `expand_vars_string` (common.rs lines 7-15): Mode B with an explicit
environment, Mode A (`shellexpand::env`, an external crate, here the
`modeA` parameter) without one. -/
def expandVarsString (sandbox : String → HMap → SandboxOut)
    (modeA : String → Except SarusError String)
    (input : String) (env : Option HMap) : Except SarusError String :=
  match env with
  | some h => expandVarsStringWithEnv sandbox input h
  | none => modeA input

/-- `expand_vars_vec` (common.rs lines 96-105): expand each element in order,
first failure aborts. `E` closes over the `env` argument of the source. -/
def expandVarsVec (E : String → Except SarusError String) :
    List String → Except SarusError (List String)
  | [] => .ok []
  | s :: rest =>
    match E s with
    | .error e => .error e
    | .ok es =>
      match expandVarsVec E rest with
      | .error e => .error e
      | .ok ers => .ok (es :: ers)

/-- `expand_vars_hashmap` (common.rs lines 82-94): every value mapped through
the expander (the source skips the re-insert when the value is unchanged,
which is the identity on the map). -/
def expandVarsHashmap (E : String → Except SarusError String) :
    HMap → Except SarusError HMap
  | [] => .ok []
  | (k, v) :: rest =>
    match E v with
    | .error e => .error e
    | .ok ev =>
      match expandVarsHashmap E rest with
      | .error e => .error e
      | .ok erest => .ok ((k, ev) :: erest)

/-! ## lib.rs — data model -/

/-- `BaseEnvironment` (lib.rs lines 82-87): untagged string-or-list. -/
inductive BaseEnvironment where
  | typeString (s : String)
  | typeVec (l : List String)
deriving DecidableEq

/-- `RawEDF` (lib.rs lines 23-44): partial document, every field optional.
`annots` models the Rust field `annotations` in its flattened
`HashMap<String,String>` form. -/
structure RawEDF where
  annots : Option HMap := none
  base_environment : Option BaseEnvironment := none
  devices : Option (List String) := none
  entrypoint : Option Bool := none
  env : Option HMap := none
  engine : Option String := none
  image : Option String := none
  mounts : Option (List String) := none
  parallax_enable : Option Bool := none
  parallax_imagestore : Option String := none
  parallax_path : Option String := none
  parallax_mount_program : Option String := none
  perfmon : Option Bool := none
  podman_module : Option String := none
  podman_path : Option String := none
  podman_tmp_path : Option String := none
  workdir : Option String := none
  writable : Option Bool := none
deriving DecidableEq

/-- `EDF` (lib.rs lines 46-80): the finalized environment. It has no
`engine` field in the source either. -/
structure EDF where
  annots : HMap
  devices : List String
  entrypoint : Bool
  env : HMap
  image : String
  mounts : List SarusMount
  parallax_enable : Bool
  parallax_imagestore : String
  parallax_mount_program : String
  parallax_path : String
  perfmon : Bool
  podman_module : String
  podman_path : String
  podman_tmp_path : String
  workdir : String
  writable : Bool
deriving DecidableEq

/-- `RawEDF::extend` (lib.rs lines 96-177): overwrite fields with the other
raw EDF `i`. Maps union with `i` winning, lists append `self` then `i`,
scalars take `i`'s value when set. The `engine` and `base_environment`
fields are never touched by the source. -/
def RawEDF.extend (self i : RawEDF) : RawEDF where
  annots :=
    match i.annots with
    | some ia => some (extendMap (match self.annots with | some sa => sa | none => []) ia)
    | none => self.annots
  base_environment := self.base_environment
  devices :=
    match i.devices, self.devices with
    | some idv, some sdv => some (sdv ++ idv)
    | some idv, none => some idv
    | none, _ => self.devices
  entrypoint := match i.entrypoint with | some v => some v | none => self.entrypoint
  env :=
    match i.env, self.env with
    | some ie, some se => some (extendMap se ie)
    | some ie, none => some ie
    | none, _ => self.env
  engine := self.engine
  image := match i.image with | some v => some v | none => self.image
  mounts :=
    match i.mounts, self.mounts with
    | some im, some sm => some (sm ++ im)
    | some im, none => some im
    | none, _ => self.mounts
  parallax_enable := match i.parallax_enable with | some v => some v | none => self.parallax_enable
  parallax_imagestore := match i.parallax_imagestore with | some v => some v | none => self.parallax_imagestore
  parallax_path := match i.parallax_path with | some v => some v | none => self.parallax_path
  parallax_mount_program := match i.parallax_mount_program with | some v => some v | none => self.parallax_mount_program
  perfmon := match i.perfmon with | some v => some v | none => self.perfmon
  podman_module := match i.podman_module with | some v => some v | none => self.podman_module
  podman_path := match i.podman_path with | some v => some v | none => self.podman_path
  podman_tmp_path := match i.podman_tmp_path with | some v => some v | none => self.podman_tmp_path
  workdir := match i.workdir with | some v => some v | none => self.workdir
  writable := match i.writable with | some v => some v | none => self.writable

/-- Finalization (`edf_from_raw`, lib.rs lines 276-350): apply the
`get_default_*` defaults to unset fields; a missing image is error 7; mount
strings are compiled through `sarus_mounts_from_strings(s, uenv)` — here the
`CM` parameter, because the env-aware compiler called at lib.rs line 305 is
not part of the mount.rs revision under src/. The struct literal of the
source evaluates `image` before `mounts`, so the code-7 error takes
precedence over compilation errors. -/
def edfFromRaw (CM : List String → Except SarusError (List SarusMount))
    (r : RawEDF) : Except SarusError EDF :=
  match r.image with
  | none => .error ⟨7, none, "missing image specification"⟩
  | some img =>
    let mountsE : Except SarusError (List SarusMount) :=
      match r.mounts with
      | some s => CM s
      | none => .ok []
    match mountsE with
    | .error e => .error e
    | .ok ms =>
      .ok
        { annots := match r.annots with | some a => a | none => []
          devices := match r.devices with | some d => d | none => []
          entrypoint := match r.entrypoint with | some b => b | none => true
          env := match r.env with | some h => h | none => []
          image := img
          mounts := ms
          parallax_enable := match r.parallax_enable with | some b => b | none => true
          parallax_imagestore := match r.parallax_imagestore with | some v => v | none => ""
          parallax_mount_program := match r.parallax_mount_program with | some v => v | none => ""
          parallax_path := match r.parallax_path with | some v => v | none => "parallax"
          perfmon := match r.perfmon with | some b => b | none => false
          podman_module := match r.podman_module with | some v => v | none => "hpc"
          podman_path := match r.podman_path with | some v => v | none => "podman"
          podman_tmp_path := match r.podman_tmp_path with | some v => v | none => "/dev/shm"
          workdir := match r.workdir with | some v => v | none => ""
          writable := match r.writable with | some b => b | none => true }

/-! ## lib.rs — resolution -/

/-- The filesystem/loader operations of the resolver. `isFile` is
`Path::is_file`, `openOk` whether `File::open` succeeds, and `loadDoc`
bundles `validate` (JSON-schema check of the file), `load` (read) and the
TOML parse into one external document loader, the claims never splitting
those error sources apart. -/
structure RenderFS where
  isFile : String → Bool
  openOk : String → Bool
  loadDoc : String → Except SarusError RawEDF

/-- Search-path probing loop of `resolve_env_path` (lib.rs lines 516-527):
first entry whose `<entry>/<name>.toml` is an openable regular file wins;
open failures fall through to the next entry. -/
def probeSearchPaths (fs : RenderFS) (ee : String) : List String → Option String
  | [] => none
  | s :: rest =>
    let fp := s ++ "/" ++ ee ++ ".toml"
    if fs.isFile fp then
      if fs.openOk fp then some fp else probeSearchPaths fs ee rest
    else probeSearchPaths fs ee rest

/-- The `retopt` value of `resolve_env_path` (lib.rs lines 514-538) for the
already-expanded name `ee`: probe the search paths when `ee` does not look
like a file path (no `.`/`/` string prefix, no `.toml` suffix), otherwise
try `ee` itself. -/
def resolveRetopt (fs : RenderFS) (ee : String) (sp : List String) : Option String :=
  if !(strStartsWith ee "." || strStartsWith ee "/") && !(strEndsWith ee ".toml") then
    probeSearchPaths fs ee sp
  else if fs.isFile ee then
    if fs.openOk ee then some ee else none
  else none

/-- The not-found error of `resolve_env_path` (lib.rs lines 542-553),
stating the expanded name and the joined probe paths. -/
def notFoundErr (ee : String) (sp : List String) : SarusError :=
  ⟨6, none, "environment \"" ++ ee ++ "\" not found at " ++ joinComma sp⟩

/-- `resolve_env_path` restricted to an already-expanded name (its body
after line 512). -/
def resolveExpandedPath (fs : RenderFS) (sp : List String) (ee : String) :
    Except SarusError String :=
  match resolveRetopt fs ee sp with
  | some s => .ok s
  | none => .error (notFoundErr ee sp)

/-- `resolve_env_path` (lib.rs lines 504-555): the incoming environment name
is passed through `expand_vars_string` first (line 512, the `E` parameter
closing over `uenv`); classification, probing and the error message all use
the expanded name. -/
def resolveEnvPath (E : String → Except SarusError String) (fs : RenderFS)
    (envName : String) (sp : List String) : Except SarusError String :=
  match E envName with
  | .error e => .error e
  | .ok ee =>
    let retopt := resolveRetopt fs ee sp
    match retopt with
    | some s => .ok s
    | none => .error (notFoundErr ee sp)

/-- Accumulator form of first-occurrence deduplication: drop the elements
already seen, keep the first occurrence of the rest, in first-seen order.
(Structurally recursive so that concrete runs compute by `rfl`.) -/
def dedupFirstAux {α : Type} [DecidableEq α] : List α → List α → List α
  | [], _ => []
  | x :: rest, seen =>
    if x ∈ seen then dedupFirstAux rest seen
    else x :: dedupFirstAux rest (x :: seen)

/-- First-occurrence deduplication: keep each element's first occurrence, in
first-seen order. Used both as the executable model of the `HashSet`
round-trip on `devices` (lib.rs lines 636-640, whose iteration order is
unspecified — any order is a refinement; the claims about it are
order-insensitive) and as the specification the mount deduplication of
`sarus_mounts_from_strings` is proved to implement. -/
def dedupKeepFirst {α : Type} [DecidableEq α] (l : List α) : List α :=
  dedupFirstAux l []

/-- The depth error of `render_inner_loop` (lib.rs lines 566-572). -/
def depthErr (max : Nat) : SarusError :=
  ⟨5, none, "base_environment rendering has more than " ++ toString max ++ " levels"⟩

/-- Expansion of the `devices` field with deduplication
(lib.rs lines 633-641). -/
def expandDevicesStep (E : String → Except SarusError String) (r : RawEDF) :
    Except SarusError RawEDF :=
  match r.devices with
  | none => .ok r
  | some d =>
    match expandVarsVec E d with
    | .error e => .error e
    | .ok ed => .ok { r with devices := some (dedupKeepFirst ed) }

/-- Expansion of the `env` map (lib.rs lines 642-644). -/
def expandEnvStep (E : String → Except SarusError String) (r : RawEDF) :
    Except SarusError RawEDF :=
  match r.env with
  | none => .ok r
  | some h =>
    match expandVarsHashmap E h with
    | .error e => .error e
    | .ok eh => .ok { r with env := some eh }

/-- Expansion of the annotation map (lib.rs lines 645-650; the source first
flattens to `HashMap<String,String>`, the form this model already uses). -/
def expandAnnotsStep (E : String → Except SarusError String) (r : RawEDF) :
    Except SarusError RawEDF :=
  match r.annots with
  | none => .ok r
  | some h =>
    match expandVarsHashmap E h with
    | .error e => .error e
    | .ok eh => .ok { r with annots := some eh }

/-- Expansion of the `engine` scalar (lib.rs lines 651-653). -/
def expandEngineStep (E : String → Except SarusError String) (r : RawEDF) :
    Except SarusError RawEDF :=
  match r.engine with
  | none => .ok r
  | some v => match E v with | .error e => .error e | .ok ev => .ok { r with engine := some ev }

/-- Expansion of `parallax_imagestore` (lib.rs lines 654-656). -/
def expandParallaxImagestoreStep (E : String → Except SarusError String) (r : RawEDF) :
    Except SarusError RawEDF :=
  match r.parallax_imagestore with
  | none => .ok r
  | some v => match E v with | .error e => .error e | .ok ev => .ok { r with parallax_imagestore := some ev }

/-- Expansion of `parallax_path` (lib.rs lines 657-659). -/
def expandParallaxPathStep (E : String → Except SarusError String) (r : RawEDF) :
    Except SarusError RawEDF :=
  match r.parallax_path with
  | none => .ok r
  | some v => match E v with | .error e => .error e | .ok ev => .ok { r with parallax_path := some ev }

/-- Expansion of `parallax_mount_program` (lib.rs lines 660-663). -/
def expandParallaxMountProgramStep (E : String → Except SarusError String) (r : RawEDF) :
    Except SarusError RawEDF :=
  match r.parallax_mount_program with
  | none => .ok r
  | some v => match E v with | .error e => .error e | .ok ev => .ok { r with parallax_mount_program := some ev }

/-- Expansion of `podman_module` (lib.rs lines 664-666). -/
def expandPodmanModuleStep (E : String → Except SarusError String) (r : RawEDF) :
    Except SarusError RawEDF :=
  match r.podman_module with
  | none => .ok r
  | some v => match E v with | .error e => .error e | .ok ev => .ok { r with podman_module := some ev }

/-- Expansion of `podman_path` (lib.rs lines 667-669). -/
def expandPodmanPathStep (E : String → Except SarusError String) (r : RawEDF) :
    Except SarusError RawEDF :=
  match r.podman_path with
  | none => .ok r
  | some v => match E v with | .error e => .error e | .ok ev => .ok { r with podman_path := some ev }

/-- Expansion of `podman_tmp_path` (lib.rs lines 670-672). -/
def expandPodmanTmpPathStep (E : String → Except SarusError String) (r : RawEDF) :
    Except SarusError RawEDF :=
  match r.podman_tmp_path with
  | none => .ok r
  | some v => match E v with | .error e => .error e | .ok ev => .ok { r with podman_tmp_path := some ev }

/-- Expansion of `workdir` (lib.rs lines 673-675). -/
def expandWorkdirStep (E : String → Except SarusError String) (r : RawEDF) :
    Except SarusError RawEDF :=
  match r.workdir with
  | none => .ok r
  | some v => match E v with | .error e => .error e | .ok ev => .ok { r with workdir := some ev }

/-- The whole field-expansion tail of `render_inner_loop`
(lib.rs lines 632-675), in source order. -/
def expandFields (E : String → Except SarusError String) (r : RawEDF) :
    Except SarusError RawEDF :=
  expandDevicesStep E r >>= expandEnvStep E >>= expandAnnotsStep E >>=
    expandEngineStep E >>= expandParallaxImagestoreStep E >>=
    expandParallaxPathStep E >>= expandParallaxMountProgramStep E >>=
    expandPodmanModuleStep E >>= expandPodmanPathStep E >>=
    expandPodmanTmpPathStep E >>= expandWorkdirStep E

/-- The base-environment accumulation loop of `render_inner_loop`
(lib.rs lines 615-625): resolve each base in list order (through `rec`,
the recursive call at the already-incremented depth), folding into the
accumulator with `RawEDF::extend`; the first failure aborts. The source also
prints each base's name and image (a `println!` whose `unwrap` on the image
is a side effect outside this model). -/
def renderBasesWith (rec : String → Except SarusError RawEDF) :
    List String → RawEDF → Except SarusError RawEDF
  | [], acc => .ok acc
  | b :: rest, acc =>
    match rec b with
    | .error e => .error e
    | .ok br => renderBasesWith rec rest (RawEDF.extend acc br)

/-- `render_inner_loop` (lib.rs lines 557-678), with an explicit structural
fuel. The wrapper `renderInnerLoop` instantiates `fuel := max + 1 - count`,
which is the exact number of calls the source can still make before its
`count > max` guard fires: with that instantiation `fuel = 0` holds exactly
when `count ≥ max + 1`, i.e. when the incremented counter exceeds `max` and
the source returns the depth error — which is what the `0` case returns, so
the fuelled function computes the very same result as the source's
recursion while staying structurally recursive. -/
def renderInnerLoopAux (fs : RenderFS) (E : String → Except SarusError String)
    (sp : List String) : Nat → String → Nat → Nat → Except SarusError RawEDF
  | 0, _, _, max => .error (depthErr max)
  | fuel + 1, name, count, max =>
    if max < count + 1 then .error (depthErr max)
    else
      match resolveEnvPath E fs name sp with
      | .error e => .error e
      | .ok path =>
        match fs.loadDoc path with
        | .error e => .error e
        | .ok doc =>
          match doc.base_environment with
          | none => expandFields E doc
          | some be =>
            match renderBasesWith (fun b => renderInnerLoopAux fs E sp fuel b (count + 1) max)
                (match be with | .typeString s => [s] | .typeVec a => a) {} with
            | .error e => .error e
            | .ok base => expandFields E (RawEDF.extend base { doc with base_environment := none })

/-- `render_inner_loop` (lib.rs lines 557-678): bump the depth counter, fail
with the depth error past `max`, resolve and load the document, recursively
fold its bases, then expand all fields. -/
def renderInnerLoop (fs : RenderFS) (E : String → Except SarusError String)
    (name : String) (sp : List String) (count max : Nat) : Except SarusError RawEDF :=
  renderInnerLoopAux fs E sp (max + 1 - count) name count max

/-- `render_from_search_paths` (lib.rs lines 680-692): `max_levels = 10`,
`loop_count = 0`, then finalize. -/
def renderFromSearchPaths (fs : RenderFS) (E : String → Except SarusError String)
    (CM : List String → Except SarusError (List SarusMount))
    (path : String) (sp : List String) : Except SarusError EDF :=
  match renderInnerLoop fs E path sp 0 10 with
  | .error e => .error e
  | .ok raw => edfFromRaw CM raw

/-! ## The explicit_env-aware mount compiler (spec §4.2)

lib.rs line 305 calls `sarus_mounts_from_strings(s, uenv)` with the explicit
environment, and the lib.rs tests use `SarusMount::to_volume_string`;
neither exists in the mount.rs revision under src/, whose `try_new` takes no
environment and performs no expansion. The env-aware compiler that lib.rs
links against is therefore repository code missing from src/, and is
modelled here from the spec for the claims that are about it. -/

/-- String-prefix test used by the spec's wording "must start with `.` or
`/`". -/
def strStartsDotOrSlash (s : String) : Bool :=
  strStartsWith s "." || strStartsWith s "/"

/-- Modelled from the spec: step 2 of spec §4.2 (classify `source` before
expansion) of the env-aware `SarusMount::try_new` missing from src/'s
mount.rs. Yields the (possibly absolutized) source and the default flag. -/
def classifySpec (fs : MountFS) (s f : String) : Except SarusError (String × String) :=
  if f = "sqsh" then
    if strStartsWith s "." then
      match fs.absolutize s with
      | none => .error ⟨9, none, "cannot translate " ++ s ++ " in an absolute path"⟩
      | some s1 => .ok (s1, "")
    else if strStartsWith s "/" then .ok (s, "")
    else .error ⟨10, none, "invalid squashfs mount source " ++ s⟩
  else
    if strStartsDotOrSlash s then .ok (s, "x-create=auto,rbind")
    else if s = "tmpfs" then .ok (s, "x-create=dir")
    else if s = "umount" then .ok (s, "x-detach")
    else .error ⟨12, none, "invalid mount source " ++ s⟩

/-- Modelled from the spec: step 5 onward of spec §4.2 of the env-aware
`SarusMount::try_new` missing from src/'s mount.rs — re-validate the
expanded source and target (`.`/`/` string prefix, else the
invalid-mount-source error code 12 / invalid-mount-target error code 13),
then assemble flags: sqsh verifies the expanded source stats as a regular
file and gets empty flags, otherwise the deduplicated comma-joined union of
the default and the expanded user flags. -/
def tryNewSpecFinish (fs : MountFS) (f df es1 et1 f1 : String) :
    Except SarusError SarusMount :=
  if !(strStartsDotOrSlash es1) then
    .error ⟨12, none, "invalid mount source " ++ es1⟩
  else if !(strStartsDotOrSlash et1) then
    .error ⟨13, none, "invalid mount target " ++ et1⟩
  else if f = "sqsh" then
    match fs.metadata es1 with
    | none => .error ⟨14, none, "could not stat source of squashfs mount (" ++ es1 ++ ")"⟩
    | some false => .error ⟨14, none, "source of squashfs mount (" ++ es1 ++ ") must be a regular file"⟩
    | some true => .ok ⟨es1, et1, ""⟩
  else if f1 = "" then
    .ok ⟨es1, et1, joinComma (dedupKeepFirst (splitComma df))⟩
  else
    .ok ⟨es1, et1, joinComma (dedupKeepFirst (splitComma (df ++ "," ++ f1)))⟩

/-- Modelled from the spec: step 4 (third expander run, over the flags
field) of spec §4.2. -/
def tryNewSpecAfterTgt (E : String → Except SarusError String) (fs : MountFS)
    (f df es1 et1 : String) : Except SarusError SarusMount :=
  match E f with
  | .error e => .error e
  | .ok f1 => tryNewSpecFinish fs f df es1 et1 f1

/-- Modelled from the spec: step 4 (second expander run, over the escaped
target) of spec §4.2. -/
def tryNewSpecAfterSrc (E : String → Except SarusError String) (fs : MountFS)
    (t f df es1 : String) : Except SarusError SarusMount :=
  match E (escapeMount t) with
  | .error e => .error e
  | .ok et1 => tryNewSpecAfterTgt E fs f df es1 et1

/-- Modelled from the spec: steps 3-4 (fstab escaping, then the first
expander run, over the escaped source) of spec §4.2, for the classified
source `s1` and default flag `df`. -/
def tryNewSpecAfterCls (E : String → Except SarusError String) (fs : MountFS)
    (t f s1 df : String) : Except SarusError SarusMount :=
  match E (escapeMount s1) with
  | .error e => .error e
  | .ok es1 => tryNewSpecAfterSrc E fs t f df es1

/-- Modelled from the spec: steps 2-7 of spec §4.2 for already-split fields
of the env-aware `SarusMount::try_new` missing from src/'s mount.rs —
classify the source, escape, run the variable expander `E` (closing over
the explicit_env passed to compile) over the escaped source, the escaped
target and the flags, re-validate, and assemble the final mount. -/
def tryNewSpecCore (E : String → Except SarusError String) (fs : MountFS)
    (s t f : String) : Except SarusError SarusMount :=
  match classifySpec fs s f with
  | .error e => .error e
  | .ok (s1, df) => tryNewSpecAfterCls E fs t f s1 df

/-- Modelled from the spec: the env-aware `SarusMount::try_new` (spec §4.2)
missing from src/'s mount.rs — split on `:` into 2 or 3 fields, then
`tryNewSpecCore`. -/
def tryNewSpec (E : String → Except SarusError String) (fs : MountFS)
    (input : String) : Except SarusError SarusMount :=
  match splitColon input with
  | [s, t] => tryNewSpecCore E fs s t ""
  | [s, t, f] => tryNewSpecCore E fs s t f
  | parts => .error ⟨8, none,
      input ++ " contains " ++ toString parts.length ++ " number of fields, expected 2 or 3"⟩

/-! ## General lemmas -/

/-- Success of a monadic bind on `Except` factors through a successful
first stage. -/
theorem except_bind_ok {ε α β : Type} {x : Except ε α} {f : α → Except ε β} {b : β}
    (h : (x >>= f) = .ok b) : ∃ a, x = .ok a ∧ f a = .ok b := by
  cases x with
  | error e => simp [Bind.bind, Except.bind] at h
  | ok a => exact ⟨a, rfl, by simpa [Bind.bind, Except.bind] using h⟩

/-- Membership in the deduplication accumulator form. -/
theorem mem_dedupFirstAux {α : Type} [DecidableEq α] :
    ∀ (l seen : List α) (x : α),
      x ∈ dedupFirstAux l seen ↔ x ∈ l ∧ x ∉ seen := by
  intro l
  induction l with
  | nil => intro seen x; simp [dedupFirstAux]
  | cons y rest ih =>
    intro seen x
    by_cases hy : y ∈ seen
    · rw [dedupFirstAux, if_pos hy, ih]
      constructor
      · rintro ⟨hx, hns⟩; exact ⟨List.mem_cons_of_mem _ hx, hns⟩
      · rintro ⟨hx, hns⟩
        rcases List.mem_cons.mp hx with hx | hx
        · exact absurd (hx ▸ hy) hns
        · exact ⟨hx, hns⟩
    · rw [dedupFirstAux, if_neg hy]
      constructor
      · intro hx
        rcases List.mem_cons.mp hx with hx | hx
        · exact ⟨hx ▸ List.mem_cons_self _ _, hx ▸ hy⟩
        · obtain ⟨h1, h2⟩ := (ih _ _).mp hx
          exact ⟨List.mem_cons_of_mem _ h1, fun hs => h2 (List.mem_cons_of_mem _ hs)⟩
      · rintro ⟨hx, hns⟩
        rcases List.mem_cons.mp hx with hx | hx
        · exact hx ▸ List.mem_cons_self _ _
        · by_cases hxy : x = y
          · exact hxy ▸ List.mem_cons_self _ _
          · exact List.mem_cons_of_mem _
              ((ih _ _).mpr ⟨hx, by simp [hxy, hns]⟩)

/-- The accumulator form never repeats an element. -/
theorem dedupFirstAux_nodup {α : Type} [DecidableEq α] :
    ∀ (l seen : List α), (dedupFirstAux l seen).Nodup := by
  intro l
  induction l with
  | nil => intro seen; simp [dedupFirstAux]
  | cons y rest ih =>
    intro seen
    by_cases hy : y ∈ seen
    · rw [dedupFirstAux, if_pos hy]; exact ih seen
    · rw [dedupFirstAux, if_neg hy]
      refine List.nodup_cons.mpr ⟨fun hmem => ?_, ih _⟩
      have := ((mem_dedupFirstAux _ _ _).mp hmem).2
      simp at this

/-- Everything kept by `dedupKeepFirst` comes from the input list. -/
theorem mem_of_mem_dedupKeepFirst {α : Type} [DecidableEq α] {l : List α} {x : α}
    (h : x ∈ dedupKeepFirst l) : x ∈ l :=
  ((mem_dedupFirstAux l [] x).mp h).1

/-- Everything in the input list survives `dedupKeepFirst`. -/
theorem mem_dedupKeepFirst_of_mem {α : Type} [DecidableEq α] {l : List α} {x : α}
    (h : x ∈ l) : x ∈ dedupKeepFirst l :=
  (mem_dedupFirstAux l [] x).mpr ⟨h, by simp⟩

/-- `dedupKeepFirst` returns a duplicate-free list. -/
theorem dedupKeepFirst_nodup {α : Type} [DecidableEq α] (l : List α) :
    (dedupKeepFirst l).Nodup :=
  dedupFirstAux_nodup l []

/-- The seen-set of the accumulator form only matters up to membership. -/
theorem dedupFirstAux_seen_congr {α : Type} [DecidableEq α] :
    ∀ (l s1 s2 : List α), (∀ x, x ∈ s1 ↔ x ∈ s2) →
      dedupFirstAux l s1 = dedupFirstAux l s2 := by
  intro l
  induction l with
  | nil => intro s1 s2 _; rfl
  | cons y rest ih =>
    intro s1 s2 hs
    by_cases hy : y ∈ s1
    · rw [dedupFirstAux, if_pos hy, dedupFirstAux, if_pos ((hs y).mp hy)]
      exact ih s1 s2 hs
    · rw [dedupFirstAux, if_neg hy, dedupFirstAux, if_neg (fun hc => hy ((hs y).mpr hc))]
      rw [ih (y :: s1) (y :: s2) (fun x => by simp [hs x])]

/-! ## Claim C2 — merge bias on scalar fields -/

/-- C2 counterexample: the claim says merge is right-biased on every scalar
field including `engine`; but `RawEDF::extend` never copies `engine`, so
when both documents set it the merge keeps the lower-precedence (`A`) value
instead of `B`'s. -/
theorem extend_engine_not_right_biased :
    (RawEDF.extend { engine := some "a" } { engine := some "b" }).engine = some "a" ∧
      (some "a" : Option String) ≠ some "b" :=
  ⟨rfl, by decide⟩

/-- C2 (amended): merge is right-biased on every scalar/bool/string field
that `RawEDF::extend` handles — `image`, `entrypoint`, `workdir`,
`writable`, `perfmon` and all `parallax_*`/`podman_*` fields — taking `B`'s
value when set and `A`'s otherwise; the `engine` scalar however is never
copied from `B`: the merge always keeps `A.engine`. -/
theorem extend_scalar_merge (A B : RawEDF) :
    (RawEDF.extend A B).image = B.image.or A.image ∧
    (RawEDF.extend A B).entrypoint = B.entrypoint.or A.entrypoint ∧
    (RawEDF.extend A B).parallax_enable = B.parallax_enable.or A.parallax_enable ∧
    (RawEDF.extend A B).parallax_imagestore = B.parallax_imagestore.or A.parallax_imagestore ∧
    (RawEDF.extend A B).parallax_mount_program = B.parallax_mount_program.or A.parallax_mount_program ∧
    (RawEDF.extend A B).parallax_path = B.parallax_path.or A.parallax_path ∧
    (RawEDF.extend A B).perfmon = B.perfmon.or A.perfmon ∧
    (RawEDF.extend A B).podman_module = B.podman_module.or A.podman_module ∧
    (RawEDF.extend A B).podman_path = B.podman_path.or A.podman_path ∧
    (RawEDF.extend A B).podman_tmp_path = B.podman_tmp_path.or A.podman_tmp_path ∧
    (RawEDF.extend A B).workdir = B.workdir.or A.workdir ∧
    (RawEDF.extend A B).writable = B.writable.or A.writable ∧
    (RawEDF.extend A B).engine = A.engine := by
  refine ⟨?_, ?_, ?_, ?_, ?_, ?_, ?_, ?_, ?_, ?_, ?_, ?_, rfl⟩
  · cases hB : B.image <;> simp [RawEDF.extend, hB, Option.or]
  · cases hB : B.entrypoint <;> simp [RawEDF.extend, hB, Option.or]
  · cases hB : B.parallax_enable <;> simp [RawEDF.extend, hB, Option.or]
  · cases hB : B.parallax_imagestore <;> simp [RawEDF.extend, hB, Option.or]
  · cases hB : B.parallax_mount_program <;> simp [RawEDF.extend, hB, Option.or]
  · cases hB : B.parallax_path <;> simp [RawEDF.extend, hB, Option.or]
  · cases hB : B.perfmon <;> simp [RawEDF.extend, hB, Option.or]
  · cases hB : B.podman_module <;> simp [RawEDF.extend, hB, Option.or]
  · cases hB : B.podman_path <;> simp [RawEDF.extend, hB, Option.or]
  · cases hB : B.podman_tmp_path <;> simp [RawEDF.extend, hB, Option.or]
  · cases hB : B.workdir <;> simp [RawEDF.extend, hB, Option.or]
  · cases hB : B.writable <;> simp [RawEDF.extend, hB, Option.or]

/-! ## Claim C5 — finalization: defaults and the mandatory image -/

/-- C5 counterexample: the claim says every finalized environment has a
non-empty image, but `edf_from_raw` only checks presence — a raw document
with `image = Some("")` finalizes successfully into an environment whose
image is the empty string. -/
theorem edfFromRaw_allows_empty_image :
    (edfFromRaw (fun _ => .ok []) { image := some "" }).toOption.map EDF.image =
      some "" := rfl

/-- C5 (amended): `edf_from_raw` applies the `get_default_*` defaults to
every still-unset optional field and fails with error code 7
(`MissingImage`) when `image` is absent; the image of a successfully
finalized environment is whatever string the raw document carried — which
may be empty, no non-emptiness check exists. -/
theorem edfFromRaw_missing_image_and_defaults :
    (∀ CM r, r.image = none → errCode (edfFromRaw CM r) = some 7) ∧
    (∀ CM r e, edfFromRaw CM r = .ok e →
      r.image = some e.image ∧
      (r.annots = none → e.annots = []) ∧
      (r.devices = none → e.devices = []) ∧
      (r.entrypoint = none → e.entrypoint = true) ∧
      (r.env = none → e.env = []) ∧
      (r.mounts = none → e.mounts = []) ∧
      (r.parallax_enable = none → e.parallax_enable = true) ∧
      (r.parallax_imagestore = none → e.parallax_imagestore = "") ∧
      (r.parallax_mount_program = none → e.parallax_mount_program = "") ∧
      (r.parallax_path = none → e.parallax_path = "parallax") ∧
      (r.perfmon = none → e.perfmon = false) ∧
      (r.podman_module = none → e.podman_module = "hpc") ∧
      (r.podman_path = none → e.podman_path = "podman") ∧
      (r.podman_tmp_path = none → e.podman_tmp_path = "/dev/shm") ∧
      (r.workdir = none → e.workdir = "") ∧
      (r.writable = none → e.writable = true)) := by
  constructor
  · intro CM r h
    unfold edfFromRaw
    rw [h]
    rfl
  · intro CM r e h
    unfold edfFromRaw at h
    cases himg : r.image with
    | none => rw [himg] at h; exact absurd h (by simp)
    | some img =>
      rw [himg] at h
      cases hms : (match r.mounts with | some s => CM s | none => .ok []) with
      | error err => rw [hms] at h; exact absurd h (by simp)
      | ok ms =>
        rw [hms] at h
        have he : e = _ := (Except.ok.inj h).symm
        subst he
        refine ⟨?_, ?_, ?_, ?_, ?_, ?_, ?_, ?_, ?_, ?_, ?_, ?_, ?_, ?_, ?_, ?_⟩
        · simp [himg]
        · intro hf; simp [hf]
        · intro hf; simp [hf]
        · intro hf; simp [hf]
        · intro hf; simp [hf]
        · intro hf
          rw [hf] at hms
          simpa using (Except.ok.inj hms).symm
        · intro hf; simp [hf]
        · intro hf; simp [hf]
        · intro hf; simp [hf]
        · intro hf; simp [hf]
        · intro hf; simp [hf]
        · intro hf; simp [hf]
        · intro hf; simp [hf]
        · intro hf; simp [hf]
        · intro hf; simp [hf]
        · intro hf; simp [hf]

/-- The all-defaults environment with image "img": what finalizing
`{ image = Some("img") }` produces. -/
def edfDefaultsImg : EDF :=
  ⟨[], [], true, [], "img", [], true, "", "", "parallax", false, "hpc", "podman",
    "/dev/shm", "", true⟩

/-- C5 witness: finalizing the empty raw document gives error 7, and
finalizing a raw document with only an image keeps that image. -/
theorem edfFromRaw_missing_image_and_defaults_witness :
    errCode (edfFromRaw (fun _ => .ok []) {}) = some 7 ∧
      (({ image := some "img" } : RawEDF)).image = some edfDefaultsImg.image :=
  ⟨edfFromRaw_missing_image_and_defaults.1 (fun _ => .ok []) {} rfl,
    (edfFromRaw_missing_image_and_defaults.2 (fun _ => .ok []) { image := some "img" }
      edfDefaultsImg rfl).1⟩

/-! ## Claim C6 — flag assembly of non-sqsh mounts -/

/-- C6 counterexample: the claim says the compiled flags are the
deduplicated token set of default and user flags, with `rbind` appearing
exactly once for `"./a:./b:rbind"`; the source concatenates without
deduplication, so `rbind` appears twice. -/
theorem tryNew_flags_duplicate_token :
    SarusMount.tryNew ⟨fun _ => none, fun _ => none⟩ "./a:./b:rbind" =
      .ok ⟨"./a", "./b", "x-create=auto,rbind,rbind"⟩ ∧
    (splitComma "x-create=auto,rbind,rbind").count "rbind" = 2 :=
  ⟨rfl, by decide⟩

/-- C6 (amended): for a non-sqsh mount spec with non-empty user flags the
compiled flags are default-flag `++ "," ++` user-flags, a verbatim
concatenation with no deduplication (duplicate tokens are kept). -/
theorem tryNew_flags_concat (fs : MountFS) (input s t f df : String)
    (hsplit : splitColon input = [s, t, f]) (hsq : f ≠ "sqsh") (hne : f ≠ "")
    (hdf : defaultFlag s = some df) (ht : pathStartsDotOrSlash t = true) :
    SarusMount.tryNew fs input = .ok ⟨escapeMount s, escapeMount t, df ++ "," ++ f⟩ := by
  unfold SarusMount.tryNew
  rw [hsplit]
  simp [tryNewCore, hsq, hne, hdf, ht]

/-- C6 witness: `"tmpfs:/x:ro"` compiles to the concatenated flags
`"x-create=dir,ro"`. -/
theorem tryNew_flags_concat_witness :
    SarusMount.tryNew ⟨fun _ => none, fun _ => none⟩ "tmpfs:/x:ro" =
      .ok ⟨"tmpfs", "/x", "x-create=dir" ++ "," ++ "ro"⟩ :=
  tryNew_flags_concat ⟨fun _ => none, fun _ => none⟩ "tmpfs:/x:ro" "tmpfs" "/x" "ro"
    "x-create=dir" (by decide) (by decide) (by decide) (by decide) (by decide)

/-! ## Claim C9 — sqsh source validation and its error codes -/

/-- C9 counterexample: the claim says a sqsh source that exists but is not a
regular file yields error code 16; the source uses code 14 for that case
too (mount.rs lines 120-126). -/
theorem tryNew_sqsh_not_regular_is_code14 :
    errCode (SarusMount.tryNew ⟨fun _ => none, fun _ => some false⟩ "/a:/b:sqsh") = some 14 ∧
    errCode (SarusMount.tryNew ⟨fun _ => none, fun _ => some false⟩ "/a:/b:sqsh") ≠ some 16 :=
  ⟨rfl, by decide⟩

/-- C9 (amended): sqsh compilation verifies the (absolutized when relative)
source path can be stat'ed and is a regular file, but both failure cases
carry error code 14 — a failed stat and an existing non-regular file alike;
on success the produced mount's flags are the empty string. -/
theorem tryNew_sqsh_checks (fs : MountFS) (input s t sres : String)
    (hsplit : splitColon input = [s, t, "sqsh"])
    (hsrc : (pathStartsDot s = true ∧ fs.absolutize s = some sres) ∨
            (pathStartsDot s = false ∧ pathStartsSlash s = true ∧ sres = s))
    (ht : pathStartsDotOrSlash t = true) :
    (fs.metadata sres = none → errCode (SarusMount.tryNew fs input) = some 14) ∧
    (fs.metadata sres = some false → errCode (SarusMount.tryNew fs input) = some 14) ∧
    (fs.metadata sres = some true →
      SarusMount.tryNew fs input = .ok ⟨escapeMount sres, escapeMount t, ""⟩) := by
  unfold SarusMount.tryNew
  rw [hsplit]
  rcases hsrc with ⟨hdot, habs⟩ | ⟨hdot, hslash, hres⟩
  · refine ⟨?_, ?_, ?_⟩ <;> (intro hm; simp [tryNewCore, hdot, habs, ht, hm, errCode])
  · subst hres
    refine ⟨?_, ?_, ?_⟩ <;> (intro hm; simp [tryNewCore, hdot, hslash, ht, hm, errCode])

/-- C9 witness: a sqsh mount whose source stats as a regular file compiles
with empty flags. -/
theorem tryNew_sqsh_checks_witness :
    SarusMount.tryNew ⟨fun _ => none, fun _ => some true⟩ "/a:/b:sqsh" =
      .ok ⟨escapeMount "/a", escapeMount "/b", ""⟩ :=
  (tryNew_sqsh_checks ⟨fun _ => none, fun _ => some true⟩ "/a:/b:sqsh" "/a" "/b" "/a"
    (by decide) (Or.inr ⟨by decide, by decide, rfl⟩) (by decide)).2.2 rfl

/-! ## Claim C7 — mount-list deduplication -/

/-- Specification-side compilation of every spec string in order, without
deduplication: the list `sarus_mounts_from_strings` deduplicates. -/
def compileAll (fs : MountFS) : List String → Except SarusError (List SarusMount)
  | [] => .ok []
  | i :: rest =>
    match SarusMount.tryNew fs i with
    | .error e => .error e
    | .ok m =>
      match compileAll fs rest with
      | .error e => .error e
      | .ok ms => .ok (m :: ms)

/-- The accumulating dedup loop, related to per-element compilation:
it appends to `acc` the first occurrences of the compiled mounts not
already accumulated. -/
theorem sarusMountsGo_spec (fs : MountFS) :
    ∀ (l : List String) (acc : List SarusMount),
      match compileAll fs l with
      | .error e => sarusMountsGo fs l acc = .error e
      | .ok all => sarusMountsGo fs l acc = .ok (acc ++ dedupFirstAux all acc) := by
  intro l
  induction l with
  | nil => intro acc; simp [compileAll, sarusMountsGo, dedupFirstAux]
  | cons i rest ih =>
    intro acc
    cases hm : SarusMount.tryNew fs i with
    | error e => simp [compileAll, sarusMountsGo, hm]
    | ok m =>
      have ihacc := ih (if m ∈ acc then acc else acc ++ [m])
      cases hra : compileAll fs rest with
      | error e =>
        rw [hra] at ihacc
        simp [compileAll, sarusMountsGo, hm, hra, ihacc]
      | ok all =>
        rw [hra] at ihacc
        simp only [compileAll, sarusMountsGo, hm, hra]
        rw [ihacc]
        by_cases hin : m ∈ acc
        · rw [if_pos hin, dedupFirstAux, if_pos hin]
        · rw [if_neg hin, dedupFirstAux, if_neg hin]
          rw [dedupFirstAux_seen_congr all (acc ++ [m]) (m :: acc)
            (fun x => by simp [List.mem_append, or_comm])]
          simp

/-- C7: the result of `sarus_mounts_from_strings` is the per-spec compiled
list with all but the first occurrence of each `(source,target,flags)`
record removed (`dedupKeepFirst` keeps the first occurrence at its
first-seen position): it is duplicate-free and has the same members as the
full compiled list. -/
theorem sarusMountsFromStrings_dedup (fs : MountFS) (input : List String)
    (res all : List SarusMount)
    (hres : sarusMountsFromStrings fs input = .ok res)
    (hall : compileAll fs input = .ok all) :
    res = dedupKeepFirst all ∧ res.Nodup ∧ (∀ m, m ∈ res ↔ m ∈ all) := by
  have h : sarusMountsGo fs input [] = .ok ([] ++ dedupFirstAux all []) := by
    have h0 := sarusMountsGo_spec fs input []
    rw [hall] at h0
    exact h0
  unfold sarusMountsFromStrings at hres
  rw [hres] at h
  have hres2 : res = dedupKeepFirst all := by
    have := Except.ok.inj h
    simpa [dedupKeepFirst] using this
  subst hres2
  exact ⟨rfl, dedupKeepFirst_nodup all,
    fun m => ⟨mem_of_mem_dedupKeepFirst, mem_dedupKeepFirst_of_mem⟩⟩

/-- C7 witness: a duplicated bind mount collapses to its first occurrence,
ahead of the later tmpfs mount. -/
theorem sarusMountsFromStrings_dedup_witness :
    [⟨"/a", "/b", "x-create=auto,rbind"⟩, ⟨"tmpfs", "/x", "x-create=dir"⟩] =
      dedupKeepFirst ([⟨"/a", "/b", "x-create=auto,rbind"⟩,
        ⟨"/a", "/b", "x-create=auto,rbind"⟩, ⟨"tmpfs", "/x", "x-create=dir"⟩] :
          List SarusMount) ∧
    ([⟨"/a", "/b", "x-create=auto,rbind"⟩, ⟨"tmpfs", "/x", "x-create=dir"⟩] :
        List SarusMount).Nodup ∧
    (∀ m, m ∈ ([⟨"/a", "/b", "x-create=auto,rbind"⟩, ⟨"tmpfs", "/x", "x-create=dir"⟩] :
        List SarusMount) ↔
      m ∈ ([⟨"/a", "/b", "x-create=auto,rbind"⟩, ⟨"/a", "/b", "x-create=auto,rbind"⟩,
        ⟨"tmpfs", "/x", "x-create=dir"⟩] : List SarusMount)) :=
  sarusMountsFromStrings_dedup ⟨fun _ => none, fun _ => none⟩
    ["/a:/b", "/a:/b", "tmpfs:/x"] _ _ rfl rfl

/-! ## Claim C4 — the Mode-B denylist -/

/-- The character preceding position `i` when `prev` precedes the list. -/
def prevOf (prev : Char) (l : List Char) (i : Nat) : Option Char :=
  if i = 0 then some prev else l[i - 1]?

/-- Indexing a cons cell for the "previous character" view: position `j` of
`c :: rest` is what precedes position `j` of `rest` prefixed by `c`. -/
theorem consGet_eq_prevOf (c : Char) (rest : List Char) (j : Nat) :
    (c :: rest)[j]? = prevOf c rest j := by
  cases j <;> simp [prevOf]

/-- A banned alternative needs at least one character. -/
theorem isBannedStart_nil : isBannedStart [] = false := rfl

/-- The positional meaning of the backslash-guarded scan. -/
theorem scanBanned_iff (l : List Char) : ∀ prev,
    scanBanned prev l = true ↔
      ∃ i, isBannedStart (l.drop i) = true ∧ prevOf prev l i ≠ some '\\' := by
  induction l with
  | nil =>
    intro prev
    simp [scanBanned, isBannedStart_nil]
  | cons c rest ih =>
    intro prev
    rw [scanBanned, Bool.or_eq_true, Bool.and_eq_true, ih c]
    constructor
    · rintro (⟨hprev, hb⟩ | ⟨i, hb, hp⟩)
      · refine ⟨0, by simpa using hb, ?_⟩
        simp only [prevOf, if_pos rfl]
        intro hcon
        have : prev = '\\' := by simpa using hcon
        simp [this] at hprev
      · refine ⟨i + 1, by simpa using hb, ?_⟩
        simpa [prevOf, consGet_eq_prevOf] using hp
    · rintro ⟨i, hb, hp⟩
      cases i with
      | zero =>
        left
        refine ⟨?_, by simpa using hb⟩
        simp only [prevOf, if_pos rfl] at hp
        simpa using fun hcon => hp (by simp [hcon])
      | succ j =>
        right
        refine ⟨j, by simpa using hb, ?_⟩
        simpa [prevOf, consGet_eq_prevOf] using hp

/-- An out-of-range position never starts a banned alternative. -/
theorem isBannedStart_drop_lt {l : List Char} {i : Nat}
    (h : isBannedStart (l.drop i) = true) : i < l.length := by
  by_contra hge
  rw [List.drop_eq_nil_of_le (Nat.le_of_not_lt hge)] at h
  simp [isBannedStart_nil] at h

/-- The regex scan of `expand_vars_string_with_env` agrees exactly with the
claim's positional description of the denylist. -/
theorem reBanned_iff_hasBanned (s : String) :
    reBannedMatch s = true ↔ hasBannedUnescaped s = true := by
  unfold reBannedMatch hasBannedUnescaped
  cases hd : s.data with
  | nil => simp
  | cons c rest =>
    rw [Bool.or_eq_true, scanBanned_iff, List.any_eq_true]
    constructor
    · rintro (hb | ⟨i, hb, hp⟩)
      · exact ⟨0, List.mem_range.mpr (by simp), by simpa using hb⟩
      · refine ⟨i + 1, List.mem_range.mpr ?_, ?_⟩
        · simpa using Nat.succ_lt_succ (Nat.lt_of_lt_of_le (isBannedStart_drop_lt hb)
            (Nat.le_refl _))
        · rw [Bool.and_eq_true]
          refine ⟨by simpa using hb, ?_⟩
          rw [Bool.or_eq_true]
          right
          simp only [Nat.add_sub_cancel]
          rw [bne_iff_ne]
          simpa [prevOf, consGet_eq_prevOf] using hp
    · rintro ⟨i, _, hcond⟩
      rw [Bool.and_eq_true, Bool.or_eq_true] at hcond
      obtain ⟨hb, hcond⟩ := hcond
      cases i with
      | zero => exact Or.inl (by simpa using hb)
      | succ j =>
        refine Or.inr ⟨j, by simpa using hb, ?_⟩
        rcases hcond with hcon | hcon
        · simp at hcon
        · rw [bne_iff_ne] at hcon
          simpa [prevOf, consGet_eq_prevOf] using hcon

/-- Cancel a common left factor of a string concatenation. -/
theorem string_append_left_cancel {a b c : String} (h : a ++ b = a ++ c) : b = c := by
  have hd := congrArg String.data h
  simp only [String.data_append] at hd
  cases b with
  | mk bd =>
    cases c with
    | mk cd => exact congrArg String.mk (List.append_cancel_left hd)

/-- C4: Mode-B expansion returns the banned-pattern error (code 18, message
suffix "invalid string") exactly when the input contains, at a position not
immediately preceded by a backslash, one of `$(`, backtick, `;`, `"` — and
for such an input the result is the same whatever the sandbox would do:
the sandbox is never consulted. The hypothesis rules out the unrelated
spawn-failure error accidentally carrying the very same message text. -/
theorem expand_banned_iff (sandbox : String → HMap → SandboxOut)
    (mA : String → Except SarusError String) (input : String) (env : HMap)
    (hsb : sandbox input env ≠ SandboxOut.spawnErr "invalid string") :
    (expandVarsString sandbox mA input (some env) = .error (bannedErr input) ↔
      hasBannedUnescaped input = true) ∧
    (hasBannedUnescaped input = true →
      ∀ (sb2 : String → HMap → SandboxOut) (mA2 : String → Except SarusError String),
        expandVarsString sb2 mA2 input (some env) = .error (bannedErr input)) := by
  constructor
  · unfold expandVarsString expandVarsStringWithEnv
    by_cases hre : reBannedMatch input = true
    · simp only [hre, if_true]
      exact ⟨fun _ => (reBanned_iff_hasBanned input).mp hre, fun _ => trivial⟩
    · have hnb : ¬ hasBannedUnescaped input = true :=
        fun hh => hre ((reBanned_iff_hasBanned input).mpr hh)
      simp only [hre, if_false]
      constructor
      · intro hc
        exfalso
        cases hsout : sandbox input env with
        | spawnErr e =>
          rw [hsout] at hc
          have hmsg := congrArg SarusError.msg (Except.error.inj hc)
          simp only [bannedErr] at hmsg
          have hmsg2 : ("cannot expand string " ++ input ++ ", ") ++ e =
              ("cannot expand string " ++ input ++ ", ") ++ "invalid string" := by
            rw [String.append_assoc ("cannot expand string " ++ input) ", " "invalid string"]
            exact hmsg
          exact hsb (hsout.trans (by rw [string_append_left_cancel hmsg2]))
        | nonUtf8 e =>
          rw [hsout] at hc
          have hcode := congrArg SarusError.code (Except.error.inj hc)
          simp [bannedErr] at hcode
        | ok o =>
          rw [hsout] at hc
          exact absurd hc (by simp)
      · intro hh
        exact absurd hh hnb
  · intro hh sb2 mA2
    unfold expandVarsString expandVarsStringWithEnv
    have hre := (reBanned_iff_hasBanned input).mpr hh
    simp [hre]

/-- C4 witness: the claim's own example, `expand("a-$(ls)-b", {"X":"1"})`, is
rejected with the banned-pattern error. -/
theorem expand_banned_iff_witness :
    expandVarsString (fun _ _ => SandboxOut.ok "out") (fun s => .ok s)
      "a-$(ls)-b" (some [("X", "1")]) = .error (bannedErr "a-$(ls)-b") :=
  (expand_banned_iff (fun _ _ => SandboxOut.ok "out") (fun s => .ok s)
      "a-$(ls)-b" [("X", "1")] (by decide)).1.mpr (by decide)

/-! ## Claim C10 — the environment name is expanded before resolution -/

/-- C10: `resolve_env_path` first expands the environment name: an
expansion failure is returned unchanged, and on success the rest of the
lookup — path-versus-name classification, search-path probing, and the
not-found error message (code 6), which quotes the expanded name — depends
only on the expanded name. -/
theorem resolveEnvPath_expands_first (E : String → Except SarusError String)
    (fs : RenderFS) (name : String) (sp : List String) :
    (∀ err, E name = .error err → resolveEnvPath E fs name sp = .error err) ∧
    (∀ ee, E name = .ok ee →
      resolveEnvPath E fs name sp = resolveExpandedPath fs sp ee) ∧
    (∀ ee, E name = .ok ee → resolveRetopt fs ee sp = none →
      resolveEnvPath E fs name sp = .error (notFoundErr ee sp)) := by
  refine ⟨?_, ?_, ?_⟩
  · intro err h
    unfold resolveEnvPath
    rw [h]
  · intro ee h
    unfold resolveEnvPath resolveExpandedPath
    rw [h]
  · intro ee h hro
    unfold resolveEnvPath
    rw [h]
    show (match resolveRetopt fs ee sp with
          | some s => Except.ok s
          | none => Except.error (notFoundErr ee sp)) = Except.error (notFoundErr ee sp)
    rw [hro]

/-- C10 witness: with an expander that rewrites the name to `"zzz"` and a
filesystem without the file, the not-found error quotes the expanded name
and the probed paths. -/
theorem resolveEnvPath_expands_first_witness :
    resolveEnvPath (fun _ => .ok "zzz")
      ⟨fun _ => false, fun _ => false, fun _ => .error ⟨0, none, ""⟩⟩
      "nm" ["p", "q"] = .error (notFoundErr "zzz" ["p", "q"]) :=
  (resolveEnvPath_expands_first (fun _ => .ok "zzz")
      ⟨fun _ => false, fun _ => false, fun _ => .error ⟨0, none, ""⟩⟩
      "nm" ["p", "q"]).2.2 "zzz" rfl rfl

/-! ## Claim C3 — depth bounding of the resolution recursion -/

/-- C3: resolution is depth-bounded. Once the already-made call count
reaches `max` the next call fails immediately with error code 5
(`TooDeep`), for any filesystem — the per-call counter, root inclusive,
never exceeds `max`; and against any filesystem in which every resolvable
name loads a document carrying a further `base_environment` link — which
covers every chain of more than 10 links and in particular a one-step
self-reference — the top-level resolution (`count = 0`, `max = 10`) aborts
with error code 5. Totality of the embedding is by construction (structural
recursion on the remaining depth budget). -/
theorem render_depth_bounded :
    (∀ (fs : RenderFS) (E : String → Except SarusError String) (name : String)
        (sp : List String) (count max : Nat), max ≤ count →
        errCode (renderInnerLoop fs E name sp count max) = some 5) ∧
    (∀ (fs : RenderFS) (E : String → Except SarusError String) (sp : List String)
        (nxt : String → String),
      (∀ n, ∃ p d, resolveEnvPath E fs n sp = .ok p ∧ fs.loadDoc p = .ok d ∧
        d.base_environment = some (.typeString (nxt n))) →
      ∀ (CM : List String → Except SarusError (List SarusMount)) (name : String),
        errCode (renderFromSearchPaths fs E CM name sp) = some 5) := by
  constructor
  · intro fs E name sp count max h
    unfold renderInnerLoop
    cases hfuel : max + 1 - count with
    | zero => rfl
    | succ k =>
      have hc : max < count + 1 := Nat.lt_succ_of_le h
      simp [renderInnerLoopAux, hc, errCode, depthErr]
  · intro fs E sp nxt H CM name
    have key : ∀ (fuel : Nat) (count max : Nat) (n : String),
        renderInnerLoopAux fs E sp fuel n count max = .error (depthErr max) := by
      intro fuel
      induction fuel with
      | zero => intro count max n; rfl
      | succ k ih =>
        intro count max n
        obtain ⟨p, d, hres, hload, hbase⟩ := H n
        by_cases hc : max < count + 1
        · simp [renderInnerLoopAux, hc]
        · simp [renderInnerLoopAux, hc, hres, hload, hbase, renderBasesWith, ih]
    unfold renderFromSearchPaths renderInnerLoop
    rw [key]
    rfl

/-- The self-referential document used to exercise the depth bound. -/
def loopDoc : RawEDF :=
  { base_environment := some (.typeString "a"), image := some "img" }

/-- A filesystem on which every name resolves and loads `loopDoc`. -/
def loopFS : RenderFS :=
  ⟨fun _ => true, fun _ => true, fun _ => .ok loopDoc⟩

/-- C3 witness: a call whose counter already reached 10 fails with code 5,
and rendering the one-step self-reference `a -> a` fails with code 5. -/
theorem render_depth_bounded_witness :
    errCode (renderInnerLoop loopFS (fun s => .ok s) "n" [] 10 10) = some 5 ∧
    errCode (renderFromSearchPaths loopFS (fun s => .ok s) (fun _ => .ok [])
      "a" ["p"]) = some 5 := by
  constructor
  · exact render_depth_bounded.1 loopFS (fun s => .ok s) "n" [] 10 10 (Nat.le_refl 10)
  · refine render_depth_bounded.2 loopFS (fun s => .ok s) ["p"] (fun _ => "a")
      (fun n => ?_) (fun _ => .ok []) "a"
    have hro : ∃ p, resolveRetopt loopFS n ["p"] = some p := by
      unfold resolveRetopt
      split
      · exact ⟨"p" ++ "/" ++ n ++ ".toml", by simp [probeSearchPaths, loopFS]⟩
      · exact ⟨n, by simp [loopFS]⟩
    obtain ⟨p, hp⟩ := hro
    refine ⟨p, loopDoc, ?_, rfl, rfl⟩
    unfold resolveEnvPath
    show (match resolveRetopt loopFS n ["p"] with
          | some s => Except.ok s
          | none => Except.error (notFoundErr n ["p"])) = Except.ok p
    rw [hp]

/-! ## Claim C8 — devices of a finalized environment are duplicate-free -/

/-- The devices-expansion step leaves only deduplicated device lists. -/
theorem expandDevicesStep_nodup {E : String → Except SarusError String}
    {a b : RawEDF} (h : expandDevicesStep E a = .ok b) :
    ∀ l, b.devices = some l → l.Nodup := by
  unfold expandDevicesStep at h
  split at h
  next ha =>
    intro l hl
    rw [← Except.ok.inj h, ha] at hl
    simp at hl
  next d ha =>
    split at h
    · exact absurd h (by simp)
    next ed hE =>
      intro l hl
      rw [← Except.ok.inj h] at hl
      simp at hl
      exact hl ▸ dedupKeepFirst_nodup ed

/-- The env-expansion step does not touch `devices`. -/
theorem expandEnvStep_devices {E : String → Except SarusError String}
    {a b : RawEDF} (h : expandEnvStep E a = .ok b) : b.devices = a.devices := by
  unfold expandEnvStep at h
  split at h
  · rw [← Except.ok.inj h]
  · split at h
    · exact absurd h (by simp)
    · rw [← Except.ok.inj h]

/-- The annotation-expansion step does not touch `devices`. -/
theorem expandAnnotsStep_devices {E : String → Except SarusError String}
    {a b : RawEDF} (h : expandAnnotsStep E a = .ok b) : b.devices = a.devices := by
  unfold expandAnnotsStep at h
  split at h
  · rw [← Except.ok.inj h]
  · split at h
    · exact absurd h (by simp)
    · rw [← Except.ok.inj h]

/-- The engine-expansion step does not touch `devices`. -/
theorem expandEngineStep_devices {E : String → Except SarusError String}
    {a b : RawEDF} (h : expandEngineStep E a = .ok b) : b.devices = a.devices := by
  unfold expandEngineStep at h
  split at h
  · rw [← Except.ok.inj h]
  · split at h
    · exact absurd h (by simp)
    · rw [← Except.ok.inj h]

/-- The parallax_imagestore-expansion step does not touch `devices`. -/
theorem expandParallaxImagestoreStep_devices {E : String → Except SarusError String}
    {a b : RawEDF} (h : expandParallaxImagestoreStep E a = .ok b) : b.devices = a.devices := by
  unfold expandParallaxImagestoreStep at h
  split at h
  · rw [← Except.ok.inj h]
  · split at h
    · exact absurd h (by simp)
    · rw [← Except.ok.inj h]

/-- The parallax_path-expansion step does not touch `devices`. -/
theorem expandParallaxPathStep_devices {E : String → Except SarusError String}
    {a b : RawEDF} (h : expandParallaxPathStep E a = .ok b) : b.devices = a.devices := by
  unfold expandParallaxPathStep at h
  split at h
  · rw [← Except.ok.inj h]
  · split at h
    · exact absurd h (by simp)
    · rw [← Except.ok.inj h]

/-- The parallax_mount_program-expansion step does not touch `devices`. -/
theorem expandParallaxMountProgramStep_devices {E : String → Except SarusError String}
    {a b : RawEDF} (h : expandParallaxMountProgramStep E a = .ok b) : b.devices = a.devices := by
  unfold expandParallaxMountProgramStep at h
  split at h
  · rw [← Except.ok.inj h]
  · split at h
    · exact absurd h (by simp)
    · rw [← Except.ok.inj h]

/-- The podman_module-expansion step does not touch `devices`. -/
theorem expandPodmanModuleStep_devices {E : String → Except SarusError String}
    {a b : RawEDF} (h : expandPodmanModuleStep E a = .ok b) : b.devices = a.devices := by
  unfold expandPodmanModuleStep at h
  split at h
  · rw [← Except.ok.inj h]
  · split at h
    · exact absurd h (by simp)
    · rw [← Except.ok.inj h]

/-- The podman_path-expansion step does not touch `devices`. -/
theorem expandPodmanPathStep_devices {E : String → Except SarusError String}
    {a b : RawEDF} (h : expandPodmanPathStep E a = .ok b) : b.devices = a.devices := by
  unfold expandPodmanPathStep at h
  split at h
  · rw [← Except.ok.inj h]
  · split at h
    · exact absurd h (by simp)
    · rw [← Except.ok.inj h]

/-- The podman_tmp_path-expansion step does not touch `devices`. -/
theorem expandPodmanTmpPathStep_devices {E : String → Except SarusError String}
    {a b : RawEDF} (h : expandPodmanTmpPathStep E a = .ok b) : b.devices = a.devices := by
  unfold expandPodmanTmpPathStep at h
  split at h
  · rw [← Except.ok.inj h]
  · split at h
    · exact absurd h (by simp)
    · rw [← Except.ok.inj h]

/-- The workdir-expansion step does not touch `devices`. -/
theorem expandWorkdirStep_devices {E : String → Except SarusError String}
    {a b : RawEDF} (h : expandWorkdirStep E a = .ok b) : b.devices = a.devices := by
  unfold expandWorkdirStep at h
  split at h
  · rw [← Except.ok.inj h]
  · split at h
    · exact absurd h (by simp)
    · rw [← Except.ok.inj h]

/-- After the field-expansion tail, a set devices list is duplicate-free. -/
theorem expandFields_devices_nodup {E : String → Except SarusError String}
    {r raw : RawEDF} (h : expandFields E r = .ok raw) :
    ∀ l, raw.devices = some l → l.Nodup := by
  unfold expandFields at h
  obtain ⟨r10, h10, hw⟩ := except_bind_ok h
  obtain ⟨r9, h9, hpt⟩ := except_bind_ok h10
  obtain ⟨r8, h8, hpp⟩ := except_bind_ok h9
  obtain ⟨r7, h7, hpm⟩ := except_bind_ok h8
  obtain ⟨r6, h6, hmp⟩ := except_bind_ok h7
  obtain ⟨r5, h5, hxp⟩ := except_bind_ok h6
  obtain ⟨r4, h4, hxi⟩ := except_bind_ok h5
  obtain ⟨r3, h3, hen⟩ := except_bind_ok h4
  obtain ⟨r2, h2, han⟩ := except_bind_ok h3
  obtain ⟨r1, h1, hev⟩ := except_bind_ok h2
  intro l hl
  refine expandDevicesStep_nodup h1 l ?_
  rw [← expandEnvStep_devices hev, ← expandAnnotsStep_devices han,
    ← expandEngineStep_devices hen, ← expandParallaxImagestoreStep_devices hxi,
    ← expandParallaxPathStep_devices hxp, ← expandParallaxMountProgramStep_devices hmp,
    ← expandPodmanModuleStep_devices hpm, ← expandPodmanPathStep_devices hpp,
    ← expandPodmanTmpPathStep_devices hpt, ← expandWorkdirStep_devices hw]
  exact hl

/-- A successful `render_inner_loop` only returns documents whose set
devices list is duplicate-free (the dedup is the last thing done to the
field, in the same call, merged bases included). -/
theorem renderInnerLoopAux_devices_nodup {fs : RenderFS}
    {E : String → Except SarusError String} {sp : List String}
    {fuel count max : Nat} {name : String} {raw : RawEDF}
    (h : renderInnerLoopAux fs E sp fuel name count max = .ok raw) :
    ∀ l, raw.devices = some l → l.Nodup := by
  cases fuel with
  | zero => exact absurd h (by simp [renderInnerLoopAux])
  | succ k =>
    unfold renderInnerLoopAux at h
    by_cases hc : max < count + 1
    · rw [if_pos hc] at h
      exact absurd h (by simp)
    · rw [if_neg hc] at h
      split at h
      · exact absurd h (by simp)
      · split at h
        · exact absurd h (by simp)
        · split at h
          · exact expandFields_devices_nodup h
          · split at h
            · exact absurd h (by simp)
            · exact expandFields_devices_nodup h

/-- C8: the devices list of any finalized environment produced by a
top-level render has no repeated string, whatever the documents of the
base-environment chain contributed. -/
theorem render_devices_nodup (fs : RenderFS) (E : String → Except SarusError String)
    (CM : List String → Except SarusError (List SarusMount))
    (name : String) (sp : List String) (e : EDF)
    (h : renderFromSearchPaths fs E CM name sp = .ok e) :
    e.devices.Nodup := by
  unfold renderFromSearchPaths at h
  split at h
  · exact absurd h (by simp)
  · rename_i raw hraw
    have hdev : ∀ l, raw.devices = some l → l.Nodup :=
      renderInnerLoopAux_devices_nodup
        (show renderInnerLoopAux fs E sp (10 + 1 - 0) name 0 10 = .ok raw from hraw)
    unfold edfFromRaw at h
    cases himg : raw.image with
    | none => rw [himg] at h; exact absurd h (by simp)
    | some img =>
      rw [himg] at h
      cases hms : (match raw.mounts with | some s => CM s | none => .ok []) with
      | error err => rw [hms] at h; exact absurd h (by simp)
      | ok ms =>
        rw [hms] at h
        have he : e = _ := (Except.ok.inj h).symm
        subst he
        show (match raw.devices with | some d => d | none => []).Nodup
        cases hd : raw.devices with
        | none => simp
        | some l => exact hdev l hd

/-- C8 witness: rendering a document that lists a device twice yields a
deduplicated devices list. -/
theorem render_devices_nodup_witness :
    (["d", "e"] : List String).Nodup :=
  render_devices_nodup
    ⟨fun _ => true, fun _ => true,
      fun _ => .ok { image := some "img", devices := some ["d", "d", "e"] }⟩
    (fun s => .ok s) (fun _ => .ok []) "name" ["p"]
    ⟨[], ["d", "e"], true, [], "img", [], true, "", "", "parallax", false, "hpc",
      "podman", "/dev/shm", "", true⟩ rfl

/-! ## Claim C1 — expansion and re-validation inside mount compilation -/

/-- C1 (against the spec-modelled env-aware compiler): after the source and
target are fstab-escaped, the variable expander runs over the escaped
source, the escaped target and the flags field with the explicit
environment of the call — an expansion failure is the compile's result —
and after expansion both the expanded source and the expanded target are
re-checked to start with `.` or `/`, failing with the invalid-mount-source
error (code 12) respectively the invalid-mount-target error (code 13)
otherwise; when everything passes, the produced mount carries the expanded
fields. -/
theorem tryNewSpec_expansion_and_revalidation
    (E : String → Except SarusError String) (fs : MountFS)
    (input s t f s1 df : String)
    (hsplit : splitColon input = [s, t, f])
    (hcls : classifySpec fs s f = .ok (s1, df)) :
    (∀ err, E (escapeMount s1) = .error err → tryNewSpec E fs input = .error err) ∧
    (∀ es1 et1 f1, E (escapeMount s1) = .ok es1 → E (escapeMount t) = .ok et1 →
      E f = .ok f1 → strStartsDotOrSlash es1 = false →
      errCode (tryNewSpec E fs input) = some 12) ∧
    (∀ es1 et1 f1, E (escapeMount s1) = .ok es1 → E (escapeMount t) = .ok et1 →
      E f = .ok f1 → strStartsDotOrSlash es1 = true → strStartsDotOrSlash et1 = false →
      errCode (tryNewSpec E fs input) = some 13) ∧
    (∀ es1 et1 f1, E (escapeMount s1) = .ok es1 → E (escapeMount t) = .ok et1 →
      E f = .ok f1 → strStartsDotOrSlash es1 = true → strStartsDotOrSlash et1 = true →
      f ≠ "sqsh" → f1 ≠ "" →
      tryNewSpec E fs input =
        .ok ⟨es1, et1, joinComma (dedupKeepFirst (splitComma (df ++ "," ++ f1)))⟩) := by
  have hred : tryNewSpec E fs input = tryNewSpecCore E fs s t f := by
    unfold tryNewSpec
    rw [hsplit]
  have hcore : tryNewSpecCore E fs s t f = tryNewSpecAfterCls E fs t f s1 df := by
    unfold tryNewSpecCore
    rw [hcls]
  refine ⟨?_, ?_, ?_, ?_⟩
  · intro err herr
    rw [hred, hcore]
    unfold tryNewSpecAfterCls
    rw [herr]
  · intro es1 et1 f1 hes het hf hns
    rw [hred, hcore]
    unfold tryNewSpecAfterCls tryNewSpecAfterSrc tryNewSpecAfterTgt
    rw [hes, het, hf]
    unfold tryNewSpecFinish
    simp [hns, errCode]
  · intro es1 et1 f1 hes het hf hs hnt
    rw [hred, hcore]
    unfold tryNewSpecAfterCls tryNewSpecAfterSrc tryNewSpecAfterTgt
    rw [hes, het, hf]
    unfold tryNewSpecFinish
    simp [hs, hnt, errCode]
  · intro es1 et1 f1 hes het hf hs ht hsq hne
    rw [hred, hcore]
    unfold tryNewSpecAfterCls tryNewSpecAfterSrc tryNewSpecAfterTgt
    rw [hes, het, hf]
    unfold tryNewSpecFinish
    simp [hs, ht, hsq, hne]

/-- C1 witness: expanding the escaped source of `"./a:/b:ro"` to a string
without a `.`/`/` prefix makes the compile fail the post-expansion
re-validation with the invalid-mount-source error. -/
theorem tryNewSpec_expansion_and_revalidation_witness :
    errCode (tryNewSpec (fun str => .ok (if str = "./a" then "xx" else str))
      ⟨fun _ => none, fun _ => none⟩ "./a:/b:ro") = some 12 :=
  (tryNewSpec_expansion_and_revalidation
      (fun str => .ok (if str = "./a" then "xx" else str))
      ⟨fun _ => none, fun _ => none⟩ "./a:/b:ro" "./a" "/b" "ro" "./a"
      "x-create=auto,rbind" (by decide) rfl).2.1 "xx" "/b" "ro"
    rfl rfl rfl (by decide)

end Raster
